import Mathlib

/-!
Verification of the ripenv crypto core against its specification.

Shallow embedding of the ripenv CLI crypto core
(`ripenv/crypto.py`, `ripenv/keyfile.py`, `ripenv/manifest.py`,
`ripenv/types.py`, and the recipient-resolution step of the `decrypt`
command in `ripenv/main.py`).

Bytes are `Nat` values; byte strings are `List Nat` with the invariant
`validBytes` (every entry below 256) where it matters. Python text is
`List Char` for base64 material and `String` for identifiers, emails and
error messages. Python exceptions become the `PyErr` sum type and fallible
functions return `Except PyErr`.

External cryptographic primitives (libsodium SecretBox and sealed boxes,
Argon2id) are not part of this repository; they are modelled by concrete
deterministic Lean functions that satisfy the interface contract the
specification states for them (deterministic, tag-checked authenticated
encryption with exact round trip; deterministic KDF with 32-byte output).
Randomness consumed by the Python code (`nacl.utils.random`, `os.urandom`,
ephemeral sealed-box keypairs) is passed in explicitly as byte tapes
`Nat -> Nat`.
-/

set_option maxRecDepth 8000

namespace Ripenv

/-- A Python bytes value: a list of byte-sized naturals. -/
abbrev Bytes := List Nat

/-- Every entry of the list is an actual byte value. -/
def validBytes (bs : Bytes) : Prop := ∀ b ∈ bs, b < 256

/-- Python exception classes reachable from the embedded code:
ValueError, nacl CryptoError, binascii.Error, nacl TypeError,
pydantic ValidationError, and the Access-Denied outcome of the
decrypt command. -/
inductive PyErr where
  | valueError (msg : String)
  | cryptoError (msg : String)
  | binasciiError (msg : String)
  | typeError (msg : String)
  | validationError (msg : String)
  | accessDenied (msg : String)
deriving DecidableEq, Repr

/-- The character for a 6-bit group in the URL-safe base64 alphabet
used by `base64.urlsafe_b64encode`. -/
def b64Char (n : Nat) : Char :=
  if n < 26 then Char.ofNat (65 + n)
  else if n < 52 then Char.ofNat (97 + (n - 26))
  else if n < 62 then Char.ofNat (48 + (n - 52))
  else if n = 62 then '-'
  else '_'

/-- Inverse alphabet lookup: the 6-bit value of a URL-safe base64
character, `none` for characters outside the alphabet. -/
def b64dec6 (c : Char) : Option Nat :=
  if 65 ≤ c.toNat ∧ c.toNat ≤ 90 then some (c.toNat - 65)
  else if 97 ≤ c.toNat ∧ c.toNat ≤ 122 then some (26 + (c.toNat - 97))
  else if 48 ≤ c.toNat ∧ c.toNat ≤ 57 then some (52 + (c.toNat - 48))
  else if c = '-' then some 62
  else if c = '_' then some 63
  else none

/-- Embeds `b64e` from `ripenv/crypto.py`: `base64.urlsafe_b64encode`
on a bytes value, decoded to ASCII text. Three input bytes become four
alphabet characters; a final group of one or two bytes is completed
with `=` padding, exactly as the Python standard library does. -/
def b64e : Bytes → List Char
  | b0 :: b1 :: b2 :: rest =>
      b64Char (b0 / 4) :: b64Char (b0 % 4 * 16 + b1 / 16) ::
        b64Char (b1 % 16 * 4 + b2 / 64) :: b64Char (b2 % 64) :: b64e rest
  | [b0, b1] =>
      [b64Char (b0 / 4), b64Char (b0 % 4 * 16 + b1 / 16), b64Char (b1 % 16 * 4), '=']
  | [b0] =>
      [b64Char (b0 / 4), b64Char (b0 % 4 * 16), '=', '=']
  | [] => []

/-- Decodes one full (unpadded) base64 quad to three bytes. -/
def b64quad (c0 c1 c2 c3 : Char) : Option Bytes :=
  match b64dec6 c0, b64dec6 c1, b64dec6 c2, b64dec6 c3 with
  | some n0, some n1, some n2, some n3 =>
      some [n0 * 4 + n1 / 16, n1 % 16 * 16 + n2 / 4, n2 % 4 * 64 + n3]
  | _, _, _, _ => none

/-- Decodes a correctly padded base64 text, four characters at a time;
a quad ending in `=` must be the last one and yields one byte (two
trailing `=`) or two bytes (one trailing `=`). This is the strict
behavior of `base64.urlsafe_b64decode` on alphabet-only input. -/
def b64decodeQuads : List Char → Option Bytes
  | [] => some []
  | c0 :: c1 :: c2 :: c3 :: rest =>
      if rest.isEmpty ∧ c3 = '=' then
        if c2 = '=' then
          match b64dec6 c0, b64dec6 c1 with
          | some n0, some n1 => some [n0 * 4 + n1 / 16]
          | _, _ => none
        else
          match b64dec6 c0, b64dec6 c1, b64dec6 c2 with
          | some n0, some n1, some n2 =>
              some [n0 * 4 + n1 / 16, n1 % 16 * 16 + n2 / 4]
          | _, _, _ => none
      else
        match b64quad c0 c1 c2 c3, b64decodeQuads rest with
        | some bs, some rest2 => some (bs ++ rest2)
        | _, _ => none
  | _ => none

/-- Embeds `b64d` from `ripenv/crypto.py`: re-adds the missing `=`
padding (the Python source computes the pad string as the remainder of
the negated length modulo four) and then decodes. -/
def b64d (s : List Char) : Option Bytes :=
  b64decodeQuads (s ++ List.replicate ((4 - s.length % 4) % 4) '=')

/-- Modelled from the spec: the keystream byte at position `i` of the
XSalsa20 stream cipher under the given key and nonce. The external
libsodium primitive is not part of this repository; any concrete
deterministic function of (key, nonce, position) is a faithful stand-in
for the properties verified here. -/
def keystream (key nonce : Bytes) (i : Nat) : Nat :=
  (key.sum * 131 + nonce.sum * 41 + i * 7 + 11) % 256

/-- Modelled from the spec: XOR of a byte string against the keystream,
starting at stream position `i`. Applying it twice restores the input. -/
def streamXor (key nonce : Bytes) : Nat → Bytes → Bytes
  | _, [] => []
  | i, b :: rest => (b ^^^ keystream key nonce i) :: streamXor key nonce (i + 1) rest

/-- Modelled from the spec: the 16-byte Poly1305-style authenticator over
the ciphertext, keyed by key and nonce. Deterministic; tag verification
on decrypt recomputes it and compares. -/
def tagBytes (key nonce ct : Bytes) : Bytes :=
  (List.range 16).map fun i =>
    (key.sum * 37 + nonce.sum * 19 +
        (ct.foldl (fun a b => (a * 257 + b) % 1000003) 7) * 3 + i * 5 + 1) % 256

/-- Modelled from the spec: `SecretBox.encrypt` ciphertext body
(without the nonce): 16-byte tag followed by the stream-encrypted
plaintext, as libsodium secretbox produces. -/
def secretBoxSeal (key nonce pt : Bytes) : Bytes :=
  tagBytes key nonce (streamXor key nonce 0 pt) ++ streamXor key nonce 0 pt

/-- Modelled from the spec: `SecretBox.decrypt` on a ciphertext body:
checks the 16-byte tag and returns the decrypted plaintext, or `none`
(the nacl CryptoError) when the input is too short or the tag does not
verify. -/
def secretBoxOpen (key nonce ct : Bytes) : Option Bytes :=
  if ct.length < 16 then none
  else if ct.take 16 = tagBytes key nonce (ct.drop 16) then
    some (streamXor key nonce 0 (ct.drop 16))
  else none

/-- SECRETBOX_NONCE_SIZE from `ripenv/crypto.py` (= SecretBox.NONCE_SIZE). -/
def SECRETBOX_NONCE_SIZE : Nat := 24

/-- KEY_LENGTH from `ripenv/crypto.py` (= SecretBox.KEY_SIZE). -/
def KEY_LENGTH : Nat := 32

/-- The 24 fresh random bytes `nacl.utils.random(SECRETBOX_NONCE_SIZE)`
draws from the random source, the source being passed explicitly as a
byte tape. -/
def drawNonce (tape : Nat → Nat) : Bytes :=
  (List.range SECRETBOX_NONCE_SIZE).map fun i => tape i % 256

/-- Embeds `secretbox_encrypt` from `ripenv/crypto.py`: rejects keys that
are not exactly 32 bytes, then draws a fresh 24-byte nonce from the
random source and returns nonce concatenated with the authenticated
ciphertext body. -/
def secretbox_encrypt (key : Bytes) (tape : Nat → Nat) (plaintext : Bytes) :
    Except PyErr Bytes :=
  if key.length ≠ KEY_LENGTH then
    .error (.valueError "SecretBox key must be 32 bytes")
  else
    .ok (drawNonce tape ++ secretBoxSeal key (drawNonce tape) plaintext)

/-- Embeds `secretbox_decrypt` from `ripenv/crypto.py`: rejects keys that
are not exactly 32 bytes (ValueError), rejects payloads shorter than the
nonce size (ValueError), then splits nonce and ciphertext and opens the
box; tag failure is the nacl CryptoError. -/
def secretbox_decrypt (key payload : Bytes) : Except PyErr Bytes :=
  if key.length ≠ KEY_LENGTH then
    .error (.valueError "SecretBox key must be 32 bytes")
  else if payload.length < SECRETBOX_NONCE_SIZE then
    .error (.valueError "Payload too short to contain nonce")
  else
    match secretBoxOpen key (payload.take SECRETBOX_NONCE_SIZE)
        (payload.drop SECRETBOX_NONCE_SIZE) with
    | some pt => .ok pt
    | none => .error (.cryptoError "Decryption failed. Ciphertext failed verification")

/-- Modelled from the spec: Curve25519 public-key derivation from a
32-byte private key (deterministic stand-in for the external primitive). -/
def curvePub (sk : Bytes) : Bytes := sk.map fun b => (b * 7 + 3) % 256

/-- Embeds `generate_keypair` from `ripenv/crypto.py`:
`PrivateKey.generate()` consumes 32 random bytes as the private key and
derives the public key from it. -/
def generate_keypair (tape : Nat → Nat) : Bytes × Bytes :=
  let sk := (List.range 32).map fun i => tape i % 256
  (sk, curvePub sk)

/-- Embeds `argon2id_kek` from `ripenv/crypto.py`. Modelled from the
spec: Argon2id with time cost 2, memory cost 65536, parallelism 1,
32-byte output is external to this repository; the model is a concrete
deterministic function of (password, salt) with output length
KEY_LENGTH, the two properties the code relies on. The utf-8 encoding of
the password is modelled as the list of character codes. -/
def argon2id_kek (password : String) (salt : Bytes) : Bytes :=
  (List.range KEY_LENGTH).map fun i =>
    ((password.data.map Char.toNat).sum * 131 + password.length * 29 +
        salt.sum * 31 + i * 13 + 7) % 256

/-- Modelled from the spec: the shared symmetric key a sealed box derives
from the ephemeral private key and the recipient public key. -/
def sealShared (ephSk pk : Bytes) : Bytes :=
  (List.range 32).map fun i => (ephSk.sum * 5 + pk.sum * 3 + i) % 256

/-- Modelled from the spec: the sealed-box nonce, derived from the
ephemeral public key and the recipient public key. -/
def sealNonce (ephPk pk : Bytes) : Bytes :=
  (List.range 24).map fun i => (ephPk.sum * 2 + pk.sum + i) % 256

/-- Embeds `sealedbox_wrap` from `ripenv/crypto.py`:
`PublicKey(pk_bytes)` validates the key size, then `SealedBox.encrypt`
generates an ephemeral keypair from the given randomness and emits the
ephemeral public key followed by the authenticated ciphertext. -/
def sealedbox_wrap (pkBytes : Bytes) (data : Bytes) (eph : Nat → Nat) :
    Except PyErr Bytes :=
  if pkBytes.length ≠ 32 then
    .error (.typeError "PublicKey must be created from 32 bytes")
  else
    let ephSk := (List.range 32).map fun i => eph i % 256
    let ephPk := curvePub ephSk
    .ok (ephPk ++ secretBoxSeal (sealShared ephSk pkBytes) (sealNonce ephPk pkBytes) data)

/-- The KeyFile record of `ripenv/types.py`: all fields are the base64
texts stored in the JSON file, plus the kdf tag. -/
structure KeyFileRec where
  publicKey : List Char
  encPrivateKey : List Char
  salt : List Char
  kdf : String
deriving DecidableEq, Repr

/-- File-system model for the keyfile side effects: an association list
from path to the keyfile record whose JSON serialization the Python code
writes there; `write_text` prepends, shadowing any earlier entry. -/
abbrev FS := List (String × KeyFileRec)

/-- One `out_path.write_text(keyfile.model_dump_json(...))` call
(directory creation folded in). -/
def fsWrite (fs : FS) (path : String) (kf : KeyFileRec) : FS := (path, kf) :: fs

/-- Embeds `create_keyfile` from `ripenv/keyfile.py`: generates a
keypair, a fresh 16-byte salt, derives the KEK, encrypts the private key
under it, assembles the record with kdf fixed to argon2id, writes the
record to `out_path` and returns it. Randomness (keypair bytes, salt,
nonce) is read from the tape at offsets 0, 32 and 48. -/
def create_keyfile (password : String) (out_path : String) (fs : FS)
    (tape : Nat → Nat) : Except PyErr (KeyFileRec × FS) :=
  let kp := generate_keypair tape
  let salt := (List.range 16).map fun i => tape (32 + i) % 256
  let kek := argon2id_kek password salt
  match secretbox_encrypt kek (fun i => tape (48 + i)) kp.1 with
  | .error e => .error e
  | .ok encPrivate =>
      let keyfile : KeyFileRec :=
        { publicKey := b64e kp.2, encPrivateKey := b64e encPrivate,
          salt := b64e salt, kdf := "argon2id" }
      .ok (keyfile, fsWrite fs out_path keyfile)

/-- Embeds `unlock_private_key` from `ripenv/keyfile.py`: rejects any
kdf tag other than argon2id (ValueError), decodes salt and encrypted
private key, re-derives the KEK, decrypts; a nacl CryptoError from the
decryption is replaced by the unified ValueError, any other exception
propagates unchanged; `PrivateKey(sk_bytes)` finally validates the
decrypted key length. -/
def unlock_private_key (password : String) (keyfile : KeyFileRec) :
    Except PyErr Bytes :=
  if keyfile.kdf ≠ "argon2id" then .error (.valueError "Unsupported KDF in keyfile")
  else
    match b64d keyfile.salt with
    | none => .error (.binasciiError "Invalid base64-encoded string")
    | some salt =>
        match b64d keyfile.encPrivateKey with
        | none => .error (.binasciiError "Invalid base64-encoded string")
        | some encPrivate =>
            match secretbox_decrypt (argon2id_kek password salt) encPrivate with
            | .ok skBytes =>
                if skBytes.length = 32 then .ok skBytes
                else .error (.typeError
                  "PrivateKey must be created from a 32 bytes long raw secret key")
            | .error (.cryptoError _) =>
                .error (.valueError
                  "Unable to decrypt private key; check password and file integrity")
            | .error e => .error e

/-- The record `create_keyfile` returns for a given password and random
tape: base64 of the public key, of the encrypted private key (nonce
followed by the sealed box body under the KEK) and of the salt, with the
fixed kdf tag. -/
def keyfileOf (password : String) (tape : Nat → Nat) : KeyFileRec :=
  { publicKey := b64e (generate_keypair tape).2
    encPrivateKey :=
      b64e (drawNonce (fun i => tape (48 + i)) ++
        secretBoxSeal
          (argon2id_kek password ((List.range 16).map fun i => tape (32 + i) % 256))
          (drawNonce fun i => tape (48 + i)) (generate_keypair tape).1)
    salt := b64e ((List.range 16).map fun i => tape (32 + i) % 256)
    kdf := "argon2id" }

/-- Composition of keyfile creation and unlock on the record it
returned, possibly under a different password: the subject of the
keyfile round-trip and wrong-password properties. -/
def createThenUnlock (createPw unlockPw : String) (path : String)
    (tape : Nat → Nat) : Except PyErr Bytes :=
  match create_keyfile createPw path [] tape with
  | .ok (kf, _) => unlock_private_key unlockPw kf
  | .error e => .error e

/-- The Recipient input record of `ripenv/types.py`. -/
structure RecipientRec where
  email : String
  publicKey : List Char
deriving DecidableEq, Repr

/-- The RecipientsExport record of `ripenv/types.py`, as plain data (the
shape `build_manifest` receives). -/
structure RecipientsExportRec where
  projectId : String
  recipients : List RecipientRec
deriving DecidableEq, Repr

/-- The `ensure_unique_emails` validator of RecipientsExport
(`ripenv/types.py`): pydantic construction of the record rejects an
empty projectId and duplicate recipient emails (the set of emails must
be as large as the list). -/
def mkRecipientsExport (projectId : String) (recipients : List RecipientRec) :
    Except PyErr RecipientsExportRec :=
  if projectId.length < 1 then
    .error (.validationError "String should have at least 1 character")
  else if (recipients.map fun r => r.email).Nodup then .ok ⟨projectId, recipients⟩
  else .error (.validationError "Duplicate recipient emails detected")

/-- The ManifestRecipient record of `ripenv/types.py`. -/
structure ManifestRecipientRec where
  email : String
  publicKey : List Char
  wrappedKey : List Char
deriving DecidableEq, Repr

/-- The Manifest record of `ripenv/types.py`. -/
structure ManifestRec where
  version : Nat
  projectId : String
  algo : String
  recipients : List ManifestRecipientRec
deriving DecidableEq, Repr

/-- Pydantic construction of a Manifest (`ripenv/types.py`): projectId
must be non-empty, version and algo are the fixed literals, and the
`ensure_recipients_not_empty` validator rejects an empty recipient list
and duplicate recipient emails. -/
def mkManifest (projectId : String) (recipients : List ManifestRecipientRec) :
    Except PyErr ManifestRec :=
  if projectId.length < 1 then
    .error (.validationError "String should have at least 1 character")
  else if recipients.isEmpty then
    .error (.validationError "Manifest must contain at least one recipient")
  else if (recipients.map fun r => r.email).Nodup then
    .ok { version := 1, projectId := projectId, algo := "xsalsa20poly1305",
          recipients := recipients }
  else .error (.validationError "Duplicate manifest recipient emails detected")

/-- The for-loop of `build_manifest` (`ripenv/manifest.py`): for each
recipient in input order, decode its public key, seal the file key to
it, and assemble a ManifestRecipient carrying email and publicKey
unchanged. The i-th recipient consumes the i-th ephemeral tape. -/
def wrapRecipients (fk : Bytes) (tapes : Nat → Nat → Nat) (i : Nat) :
    List RecipientRec → Except PyErr (List ManifestRecipientRec)
  | [] => .ok []
  | r :: rest =>
      match b64d r.publicKey with
      | none => .error (.binasciiError "Invalid base64-encoded string")
      | some pkBytes =>
          match sealedbox_wrap pkBytes fk (tapes i) with
          | .error e => .error e
          | .ok wrapped =>
              match wrapRecipients fk tapes (i + 1) rest with
              | .error e => .error e
              | .ok tail =>
                  .ok ({ email := r.email, publicKey := r.publicKey,
                         wrappedKey := b64e wrapped } :: tail)

/-- Embeds `build_manifest` from `ripenv/manifest.py`: wraps the file
key for every recipient, then constructs the Manifest (running the
pydantic validations). -/
def build_manifest (project_id : String) (fk : Bytes)
    (recipients : RecipientsExportRec) (tapes : Nat → Nat → Nat) :
    Except PyErr ManifestRec :=
  match wrapRecipients fk tapes 0 recipients.recipients with
  | .error e => .error e
  | .ok manifest_recipients => mkManifest project_id manifest_recipients

/-- The wrappedKey text `build_manifest` stores for one recipient: the
file key sealed to that recipient public key, base64-encoded (empty on
the failure paths, which the shape theorem excludes by hypothesis). -/
def wrappedKeyOf (fk : Bytes) (eph : Nat → Nat) (r : RecipientRec) : List Char :=
  match b64d r.publicKey with
  | some pkBytes =>
      match sealedbox_wrap pkBytes fk eph with
      | .ok wrapped => b64e wrapped
      | .error _ => []
  | none => []

/-- The recipient list `build_manifest` produces on the success path:
one entry per input recipient, in input order, email and publicKey
copied unchanged, wrappedKey the sealed file key. -/
def expectedWrap (fk : Bytes) (tapes : Nat → Nat → Nat) (i : Nat) :
    List RecipientRec → List ManifestRecipientRec
  | [] => []
  | r :: rest =>
      { email := r.email, publicKey := r.publicKey,
        wrappedKey := wrappedKeyOf fk (tapes i) r } :: expectedWrap fk tapes (i + 1) rest

/-- Python str.lower, modelled characterwise. -/
def strLower (s : String) : String := String.map Char.toLower s

/-- Embeds the recipient-resolution step of the `decrypt` command
(`ripenv/main.py`, step 4): scan the manifest recipients for the first
entry whose publicKey equals the keyfile publicKey; only when none
matches, fall back to the first entry whose email matches the
caller-supplied email case-insensitively; when that also fails, the
command shows Access Denied and stops. -/
def resolveRecipient (userPublicKey : List Char) (emailInput : String)
    (recipients : List ManifestRecipientRec) : Except PyErr ManifestRecipientRec :=
  match recipients.find? (fun r => r.publicKey == userPublicKey) with
  | some r => .ok r
  | none =>
      match recipients.find? (fun r => strLower r.email == strLower emailInput) with
      | some r => .ok r
      | none => .error (.accessDenied "No manifest entry found")

/-- True exactly when a decrypt-style result is the nacl CryptoError
class (the AuthenticationError of the specification). -/
def isCryptoErrorResult : Except PyErr Bytes → Bool
  | .error (.cryptoError _) => true
  | _ => false

/-- The number of files in the file system a create_keyfile result left
behind (zero for the failure result). -/
def fsLenOfResult : Except PyErr (KeyFileRec × FS) → Nat
  | .ok (_, fs) => fs.length
  | .error _ => 0

/-! ## Codec lemmas -/

theorem b64dec6_b64Char : ∀ n < 64, b64dec6 (b64Char n) = some n := by decide

theorem b64Char_ne_pad : ∀ n < 64, b64Char n ≠ '=' := by decide

theorem length_b64e_mod (bs : Bytes) : (b64e bs).length % 4 = 0 := by
  induction bs using b64e.induct <;> simp [b64e, *] <;> omega

theorem decode_encode (bs : Bytes) (h : validBytes bs) :
    b64decodeQuads (b64e bs) = some bs := by
  induction bs using b64e.induct with
  | case1 b0 b1 b2 rest ih =>
      have h0 : b0 < 256 := h b0 (by simp)
      have h1 : b1 < 256 := h b1 (by simp)
      have h2 : b2 < 256 := h b2 (by simp)
      have hrest : validBytes rest := fun b hb => h b (by simp [hb])
      have e0 : b64dec6 (b64Char (b0 / 4)) = some (b0 / 4) :=
        b64dec6_b64Char _ (by omega)
      have e1 : b64dec6 (b64Char (b0 % 4 * 16 + b1 / 16)) = some (b0 % 4 * 16 + b1 / 16) :=
        b64dec6_b64Char _ (by omega)
      have e2 : b64dec6 (b64Char (b1 % 16 * 4 + b2 / 64)) = some (b1 % 16 * 4 + b2 / 64) :=
        b64dec6_b64Char _ (by omega)
      have e3 : b64dec6 (b64Char (b2 % 64)) = some (b2 % 64) :=
        b64dec6_b64Char _ (by omega)
      have hc3 : b64Char (b2 % 64) ≠ '=' := b64Char_ne_pad _ (by omega)
      have g0 : b0 / 4 * 4 + (b0 % 4 * 16 + b1 / 16) / 16 = b0 := by omega
      have g1 : (b0 % 4 * 16 + b1 / 16) % 16 * 16 + (b1 % 16 * 4 + b2 / 64) / 4 = b1 := by
        omega
      have g2 : (b1 % 16 * 4 + b2 / 64) % 4 * 64 + b2 % 64 = b2 := by omega
      simp [b64e, b64decodeQuads, hc3, b64quad, e0, e1, e2, e3, ih hrest, g0, g1, g2]
  | case2 b0 b1 =>
      have h0 : b0 < 256 := h b0 (by simp)
      have h1 : b1 < 256 := h b1 (by simp)
      have e0 : b64dec6 (b64Char (b0 / 4)) = some (b0 / 4) :=
        b64dec6_b64Char _ (by omega)
      have e1 : b64dec6 (b64Char (b0 % 4 * 16 + b1 / 16)) = some (b0 % 4 * 16 + b1 / 16) :=
        b64dec6_b64Char _ (by omega)
      have e2 : b64dec6 (b64Char (b1 % 16 * 4)) = some (b1 % 16 * 4) :=
        b64dec6_b64Char _ (by omega)
      have hc2 : b64Char (b1 % 16 * 4) ≠ '=' := b64Char_ne_pad _ (by omega)
      have g0 : b0 / 4 * 4 + (b0 % 4 * 16 + b1 / 16) / 16 = b0 := by omega
      have g1 : (b0 % 4 * 16 + b1 / 16) % 16 * 16 + b1 % 16 = b1 := by omega
      simp [b64e, b64decodeQuads, hc2, e0, e1, e2, g0, g1]
  | case3 b0 =>
      have h0 : b0 < 256 := h b0 (by simp)
      have e0 : b64dec6 (b64Char (b0 / 4)) = some (b0 / 4) :=
        b64dec6_b64Char _ (by omega)
      have e1 : b64dec6 (b64Char (b0 % 4 * 16)) = some (b0 % 4 * 16) :=
        b64dec6_b64Char _ (by omega)
      have g0 : b0 / 4 * 4 + b0 % 4 = b0 := by omega
      simp [b64e, b64decodeQuads, e0, e1, g0]
  | case4 => rfl

theorem b64d_b64e (bs : Bytes) (h : validBytes bs) : b64d (b64e bs) = some bs := by
  have hlen := length_b64e_mod bs
  simp [b64d, hlen, decode_encode bs h]

theorem repad_takeWhile_b64e (bs : Bytes) (h : validBytes bs) :
    (b64e bs).takeWhile (fun c => c ≠ '=') ++
        List.replicate
          ((4 - ((b64e bs).takeWhile (fun c => c ≠ '=')).length % 4) % 4) '=' =
      b64e bs := by
  induction bs using b64e.induct with
  | case1 b0 b1 b2 rest ih =>
      have h0 : b0 < 256 := h b0 (by simp)
      have h1 : b1 < 256 := h b1 (by simp)
      have h2 : b2 < 256 := h b2 (by simp)
      have hrest : validBytes rest := fun b hb => h b (by simp [hb])
      have hc0 : b64Char (b0 / 4) ≠ '=' := b64Char_ne_pad _ (by omega)
      have hc1 : b64Char (b0 % 4 * 16 + b1 / 16) ≠ '=' := b64Char_ne_pad _ (by omega)
      have hc2 : b64Char (b1 % 16 * 4 + b2 / 64) ≠ '=' := b64Char_ne_pad _ (by omega)
      have hc3 : b64Char (b2 % 64) ≠ '=' := b64Char_ne_pad _ (by omega)
      have hmod :
          (4 - (((b64e rest).takeWhile (fun c => c ≠ '=')).length + 1 + 1 + 1 + 1) % 4) % 4 =
            (4 - ((b64e rest).takeWhile (fun c => c ≠ '=')).length % 4) % 4 := by omega
      simp only [b64e, List.takeWhile_cons, hc0, hc1, hc2, hc3, ne_eq,
        not_false_eq_true, decide_True, if_true, List.length_cons, List.cons_append]
      rw [hmod, ih hrest]
  | case2 b0 b1 =>
      have h0 : b0 < 256 := h b0 (by simp)
      have h1 : b1 < 256 := h b1 (by simp)
      have hc0 : b64Char (b0 / 4) ≠ '=' := b64Char_ne_pad _ (by omega)
      have hc1 : b64Char (b0 % 4 * 16 + b1 / 16) ≠ '=' := b64Char_ne_pad _ (by omega)
      have hc2 : b64Char (b1 % 16 * 4) ≠ '=' := b64Char_ne_pad _ (by omega)
      simp [b64e, List.takeWhile_cons, hc0, hc1, hc2, List.replicate]
  | case3 b0 =>
      have h0 : b0 < 256 := h b0 (by simp)
      have hc0 : b64Char (b0 / 4) ≠ '=' := b64Char_ne_pad _ (by omega)
      have hc1 : b64Char (b0 % 4 * 16) ≠ '=' := b64Char_ne_pad _ (by omega)
      simp [b64e, List.takeWhile_cons, hc0, hc1, List.replicate]
  | case4 => rfl

theorem b64d_unpadded (bs : Bytes) (h : validBytes bs) :
    b64d ((b64e bs).takeWhile (fun c => c ≠ '=')) = some bs := by
  unfold b64d
  rw [repad_takeWhile_b64e bs h]
  exact decode_encode bs h

/-! ## SecretBox model lemmas -/

theorem streamXor_involution (key nonce : Bytes) (i : Nat) (bs : Bytes) :
    streamXor key nonce i (streamXor key nonce i bs) = bs := by
  induction bs generalizing i with
  | nil => rfl
  | cons b rest ih => simp [streamXor, Nat.xor_cancel_right, ih]

theorem length_tagBytes (key nonce ct : Bytes) : (tagBytes key nonce ct).length = 16 := by
  simp [tagBytes]

theorem length_drawNonce (tape : Nat → Nat) : (drawNonce tape).length = 24 := by
  simp [drawNonce, SECRETBOX_NONCE_SIZE]

theorem secretBoxOpen_seal (key nonce pt : Bytes) :
    secretBoxOpen key nonce (secretBoxSeal key nonce pt) = some pt := by
  unfold secretBoxOpen secretBoxSeal
  have hlen := length_tagBytes key nonce (streamXor key nonce 0 pt)
  rw [List.take_left' hlen, List.drop_left' hlen]
  rw [if_neg (by simp only [List.length_append, hlen]; omega), if_pos rfl,
    streamXor_involution]

theorem secretbox_decrypt_encrypt (key : Bytes) (hk : key.length = KEY_LENGTH)
    (tape : Nat → Nat) (pt : Bytes) :
    secretbox_decrypt key (drawNonce tape ++ secretBoxSeal key (drawNonce tape) pt) =
      .ok pt := by
  unfold secretbox_decrypt
  have hn := length_drawNonce tape
  have hlen : (drawNonce tape ++ secretBoxSeal key (drawNonce tape) pt).length =
      24 + (secretBoxSeal key (drawNonce tape) pt).length := by simp [hn]
  rw [if_neg (by omega), if_neg (by simp [hlen, SECRETBOX_NONCE_SIZE])]
  have ht : (drawNonce tape).length = SECRETBOX_NONCE_SIZE := hn
  rw [List.take_left' ht, List.drop_left' ht, secretBoxOpen_seal]

theorem secretbox_decrypt_tagfail (key payload : Bytes) (hk : key.length = 32)
    (h : ¬ payload.length < 24)
    (hopen : secretBoxOpen key (payload.take 24) (payload.drop 24) = none) :
    secretbox_decrypt key payload =
      .error (.cryptoError "Decryption failed. Ciphertext failed verification") := by
  unfold secretbox_decrypt
  rw [if_neg (by simp [KEY_LENGTH, hk]),
    if_neg (by simpa [SECRETBOX_NONCE_SIZE] using h)]
  simp only [SECRETBOX_NONCE_SIZE]
  rw [hopen]

/-! ## Byte-range lemmas -/

theorem validBytes_mapMod (l : List Nat) (f : Nat → Nat) :
    validBytes (l.map fun i => f i % 256) := by
  intro b hb
  simp only [List.mem_map] at hb
  obtain ⟨a, -, rfl⟩ := hb
  exact Nat.mod_lt _ (by norm_num)

theorem validBytes_append {a b : Bytes} (ha : validBytes a) (hb : validBytes b) :
    validBytes (a ++ b) := by
  intro x hx
  rcases List.mem_append.mp hx with h | h
  · exact ha x h
  · exact hb x h

theorem keystream_lt (key nonce : Bytes) (i : Nat) : keystream key nonce i < 256 :=
  Nat.mod_lt _ (by norm_num)

theorem validBytes_streamXor (key nonce : Bytes) (i : Nat) {bs : Bytes}
    (h : validBytes bs) : validBytes (streamXor key nonce i bs) := by
  induction bs generalizing i with
  | nil => intro x hx; simp [streamXor] at hx
  | cons b rest ih =>
      intro x hx
      simp only [streamXor, List.mem_cons] at hx
      rcases hx with rfl | hx
      · have hb : b < 2 ^ 8 := by simpa using h b (by simp)
        have hks : keystream key nonce i < 2 ^ 8 := by simpa using keystream_lt key nonce i
        simpa using Nat.xor_lt_two_pow hb hks
      · exact ih (i + 1) (fun y hy => h y (by simp [hy])) x hx

theorem validBytes_tagBytes (key nonce ct : Bytes) : validBytes (tagBytes key nonce ct) :=
  validBytes_mapMod (List.range 16) _

theorem validBytes_drawNonce (tape : Nat → Nat) : validBytes (drawNonce tape) :=
  validBytes_mapMod (List.range SECRETBOX_NONCE_SIZE) _

theorem validBytes_secretBoxSeal (key nonce : Bytes) {pt : Bytes} (h : validBytes pt) :
    validBytes (secretBoxSeal key nonce pt) :=
  validBytes_append (validBytes_tagBytes key nonce _) (validBytes_streamXor key nonce 0 h)

/-! ## Keyfile lemmas -/

theorem argon2id_kek_length (pw : String) (salt : Bytes) :
    (argon2id_kek pw salt).length = 32 := by
  simp [argon2id_kek, KEY_LENGTH]

theorem generate_keypair_fst (tape : Nat → Nat) :
    (generate_keypair tape).1 = (List.range 32).map fun i => tape i % 256 := rfl

theorem create_keyfile_eq (pw path : String) (fs : FS) (tape : Nat → Nat) :
    create_keyfile pw path fs tape =
      .ok (keyfileOf pw tape, fsWrite fs path (keyfileOf pw tape)) := by
  simp [create_keyfile, keyfileOf, secretbox_encrypt, argon2id_kek_length, KEY_LENGTH]

theorem unlock_keyfileOf (pw : String) (tape : Nat → Nat) :
    unlock_private_key pw (keyfileOf pw tape) = .ok (generate_keypair tape).1 := by
  unfold unlock_private_key keyfileOf
  have hsk : validBytes (generate_keypair tape).1 := by
    rw [generate_keypair_fst]
    exact validBytes_mapMod _ _
  have hsalt : b64d (b64e ((List.range 16).map fun i => tape (32 + i) % 256)) =
      some ((List.range 16).map fun i => tape (32 + i) % 256) :=
    b64d_b64e _ (validBytes_mapMod _ _)
  have henc : b64d (b64e (drawNonce (fun i => tape (48 + i)) ++
      secretBoxSeal
        (argon2id_kek pw ((List.range 16).map fun i => tape (32 + i) % 256))
        (drawNonce fun i => tape (48 + i)) (generate_keypair tape).1)) =
      some (drawNonce (fun i => tape (48 + i)) ++
        secretBoxSeal
          (argon2id_kek pw ((List.range 16).map fun i => tape (32 + i) % 256))
          (drawNonce fun i => tape (48 + i)) (generate_keypair tape).1) :=
    b64d_b64e _ (validBytes_append (validBytes_drawNonce _)
      (validBytes_secretBoxSeal _ _ hsk))
  have hdec := secretbox_decrypt_encrypt
    (argon2id_kek pw ((List.range 16).map fun i => tape (32 + i) % 256))
    (by simp [argon2id_kek_length, KEY_LENGTH]) (fun i => tape (48 + i))
    (generate_keypair tape).1
  have hlen : (generate_keypair tape).1.length = 32 := by
    rw [generate_keypair_fst]; simp
  simp only [hsalt, henc, hdec, hlen]
  simp [hlen]

/-! ## Claims about the payload cipher and the codec -/

/-- C1 counterexample: on a 32-byte key and a payload shorter than the
nonce size, `secretbox_decrypt` raises ValueError, which is not the
AuthenticationError (CryptoError) class, so the two failure causes named
by the claim are distinguishable by exception class. -/
theorem C1_short_payload_error_class :
    secretbox_decrypt (List.replicate 32 0) [] =
        .error (.valueError "Payload too short to contain nonce") ∧
      isCryptoErrorResult (secretbox_decrypt (List.replicate 32 0) []) = false := by
  constructor <;> rfl

/-- C1 amended: for every 32-byte key, `secretbox_decrypt` fails with
ValueError when the payload is shorter than the 24-byte nonce size, and
with the nacl CryptoError (the AuthenticationError class) when the
authentication tag does not verify; the two causes are therefore
distinguishable by exception class, contrary to the original claim. -/
theorem C1_decrypt_error_classes (key payload : Bytes) (hk : key.length = 32) :
    (payload.length < 24 →
        secretbox_decrypt key payload =
          .error (.valueError "Payload too short to contain nonce")) ∧
      (¬ payload.length < 24 →
        secretBoxOpen key (payload.take 24) (payload.drop 24) = none →
        secretbox_decrypt key payload =
          .error (.cryptoError "Decryption failed. Ciphertext failed verification")) := by
  unfold secretbox_decrypt
  rw [if_neg (by simp [KEY_LENGTH, hk])]
  constructor
  · intro h
    rw [if_pos (by simpa [SECRETBOX_NONCE_SIZE] using h)]
  · intro h hopen
    rw [if_neg (by simpa [SECRETBOX_NONCE_SIZE] using h)]
    simp only [SECRETBOX_NONCE_SIZE]
    rw [hopen]

/-- C1 witness: a 24-byte all-zero payload under the all-zero key has an
empty ciphertext body, whose tag cannot verify, and decrypt reports the
CryptoError class. -/
theorem C1_decrypt_error_classes_witness :
    secretbox_decrypt (List.replicate 32 0) (List.replicate 24 0) =
      .error (.cryptoError "Decryption failed. Ciphertext failed verification") :=
  (C1_decrypt_error_classes (List.replicate 32 0) (List.replicate 24 0)
    (by decide)).2 (by decide) (by decide)

/-- C3 counterexample: the encoder output for the single byte 97 is the
text YQ== and contains padding characters, so b64e does not produce
output stored without padding. -/
theorem C3_padding_emitted :
    b64e [97] = ['Y', 'Q', '=', '='] ∧ '=' ∈ b64e [97] := by
  constructor <;> decide

/-- C3 amended: `b64e` produces URL-safe base64 WITH padding (contrary
to the claim that the stored form is unpadded), and `b64d` re-adds
padding as needed, so that both the padded output and its unpadded form
decode back to the original bytes: b64d (b64e x) = x and removing the
trailing padding before decoding also succeeds. -/
theorem C3_b64_roundtrip (bs : Bytes) (h : validBytes bs) :
    b64d (b64e bs) = some bs ∧
      b64d ((b64e bs).takeWhile (fun c => c ≠ '=')) = some bs :=
  ⟨b64d_b64e bs h, b64d_unpadded bs h⟩

/-- C3 witness: the round trip evaluated on the concrete bytes 0, 1, 250. -/
theorem C3_b64_roundtrip_witness :
    b64d (b64e [0, 1, 250]) = some [0, 1, 250] ∧
      b64d ((b64e [0, 1, 250]).takeWhile (fun c => c ≠ '=')) = some [0, 1, 250] :=
  C3_b64_roundtrip [0, 1, 250] (by simp only [validBytes]; decide)

/-- C4: for every 32-byte key, every state of the random source and
every plaintext, `secretbox_encrypt` succeeds producing nonce plus
authenticated body, and `secretbox_decrypt` of that payload returns
exactly the original plaintext. -/
theorem C4_secretbox_roundtrip (key : Bytes) (tape : Nat → Nat) (pt : Bytes)
    (hk : key.length = 32) :
    secretbox_encrypt key tape pt =
        .ok (drawNonce tape ++ secretBoxSeal key (drawNonce tape) pt) ∧
      secretbox_decrypt key (drawNonce tape ++ secretBoxSeal key (drawNonce tape) pt) =
        .ok pt := by
  constructor
  · unfold secretbox_encrypt
    rw [if_neg (by simp [KEY_LENGTH, hk])]
  · exact secretbox_decrypt_encrypt key (by simp [KEY_LENGTH, hk]) tape pt

/-- C4 witness: the round trip evaluated at the all-zero key, the
constant-5 random source and the plaintext 1, 2, 3. -/
theorem C4_secretbox_roundtrip_witness :
    secretbox_encrypt (List.replicate 32 0) (fun _ => 5) [1, 2, 3] =
        .ok (drawNonce (fun _ => 5) ++
          secretBoxSeal (List.replicate 32 0) (drawNonce fun _ => 5) [1, 2, 3]) ∧
      secretbox_decrypt (List.replicate 32 0)
          (drawNonce (fun _ => 5) ++
            secretBoxSeal (List.replicate 32 0) (drawNonce fun _ => 5) [1, 2, 3]) =
        .ok [1, 2, 3] :=
  C4_secretbox_roundtrip (List.replicate 32 0) (fun _ => 5) [1, 2, 3] (by decide)

/-- C10: for every key whose length is not 32 bytes, both encrypt and
decrypt reject with the same ValueError; the encrypt result is moreover
the same whatever the random source or plaintext, showing the rejection
happens before either is consumed, and likewise decrypt rejects for
every payload. -/
theorem C10_key_size_guard (key pt payload : Bytes) (tape tape2 : Nat → Nat)
    (hk : key.length ≠ 32) :
    secretbox_encrypt key tape pt =
        .error (.valueError "SecretBox key must be 32 bytes") ∧
      secretbox_encrypt key tape pt = secretbox_encrypt key tape2 [] ∧
      secretbox_decrypt key payload =
        .error (.valueError "SecretBox key must be 32 bytes") := by
  refine ⟨?_, ?_, ?_⟩ <;>
    simp [secretbox_encrypt, secretbox_decrypt, KEY_LENGTH, hk]

/-- C10 witness: evaluated at the 1-byte key 0 with two different random
sources, a non-empty plaintext and a non-empty payload. -/
theorem C10_key_size_guard_witness :
    secretbox_encrypt [0] (fun _ => 0) [1] =
        .error (.valueError "SecretBox key must be 32 bytes") ∧
      secretbox_encrypt [0] (fun _ => 0) [1] = secretbox_encrypt [0] (fun _ => 9) [] ∧
      secretbox_decrypt [0] [2] =
        .error (.valueError "SecretBox key must be 32 bytes") :=
  C10_key_size_guard [0] [1] [2] (fun _ => 0) (fun _ => 9) (by decide)

/-! ## Claims about the key manager -/

/-- C2 counterexample: calling create_keyfile on an empty file system
leaves one file behind, so the call does have a side effect beyond
returning the record. -/
theorem C2_create_keyfile_side_effect :
    fsLenOfResult (create_keyfile "pw" "mykey.enc.json" [] fun _ => 0) = 1 ∧
      ([] : FS).length = 0 := by
  constructor
  · rw [create_keyfile_eq]
    rfl
  · rfl

/-- C2 amended: for every password, path, file system and randomness,
create_keyfile both returns the KeyFile record and persists exactly that
record at out_path (the Python code creates the parent directories and
writes the JSON itself; persistence is not left to the caller). -/
theorem C2_create_keyfile_persists (pw path : String) (fs : FS) (tape : Nat → Nat) :
    ∃ kf, create_keyfile pw path fs tape = .ok (kf, fsWrite fs path kf) :=
  ⟨keyfileOf pw tape, create_keyfile_eq pw path fs tape⟩

/-- C5: for every password, path, file system and randomness, unlocking
the record returned by create_keyfile with the same password succeeds
and returns exactly the private-key bytes generated during creation. -/
theorem C5_keyfile_roundtrip (pw path : String) (fs : FS) (tape : Nat → Nat) :
    ∃ kf fs2, create_keyfile pw path fs tape = .ok (kf, fs2) ∧
      unlock_private_key pw kf = .ok (generate_keypair tape).1 :=
  ⟨keyfileOf pw tape, fsWrite fs path (keyfileOf pw tape),
    create_keyfile_eq pw path fs tape, unlock_keyfileOf pw tape⟩

/-- C6 counterexample: with the kdf tag valid, a wrong password produces
the unified ValueError message, but a corrupted encPrivateKey that
decodes to fewer than 24 bytes (a truncation corruption) produces a
ValueError with a different message, so the two causes are not always
indistinguishable as claimed. -/
theorem C6_truncation_message_differs :
    createThenUnlock "b" "a" "k" (fun _ => 0) =
        .error (.valueError
          "Unable to decrypt private key; check password and file integrity") ∧
      unlock_private_key "a"
          { publicKey := ['A'], encPrivateKey := b64e (List.replicate 10 0),
            salt := b64e (List.replicate 16 0), kdf := "argon2id" } =
        .error (.valueError "Payload too short to contain nonce") ∧
      PyErr.valueError
          "Unable to decrypt private key; check password and file integrity" ≠
        PyErr.valueError "Payload too short to contain nonce" := by
  refine ⟨by rfl, by rfl, by decide⟩

/-- C6 amended: for every keyfile with the supported kdf tag whose
stored fields decode and whose encPrivateKey still holds at least the
24-byte nonce, every authentication-tag failure of the inner decryption
(whether from a wrong password or from tampering with the ciphertext)
surfaces as the same ValueError with the same message; only a
truncation of the stored ciphertext below the nonce size yields a
ValueError with a different message. -/
theorem C6_unified_failure (pw : String) (kf : KeyFileRec) (salt enc : Bytes)
    (hk : kf.kdf = "argon2id") (hs : b64d kf.salt = some salt)
    (he : b64d kf.encPrivateKey = some enc) (hlen : ¬ enc.length < 24)
    (hopen : secretBoxOpen (argon2id_kek pw salt) (enc.take 24) (enc.drop 24) = none) :
    unlock_private_key pw kf =
      .error (.valueError
        "Unable to decrypt private key; check password and file integrity") := by
  unfold unlock_private_key
  rw [if_neg (by simp [hk])]
  simp only [hs, he,
    secretbox_decrypt_tagfail _ _ (argon2id_kek_length pw salt) hlen hopen]

/-- C6 witness: the wrong-password case on a concretely created keyfile
satisfies every hypothesis of the unified-failure theorem. -/
theorem C6_unified_failure_witness :
    unlock_private_key "a" (keyfileOf "b" fun _ => 0) =
      .error (.valueError
        "Unable to decrypt private key; check password and file integrity") :=
  C6_unified_failure "a" (keyfileOf "b" fun _ => 0)
    (List.replicate 16 0)
    (drawNonce (fun _ => 0) ++
      secretBoxSeal (argon2id_kek "b" (List.replicate 16 0)) (drawNonce fun _ => 0)
        (List.replicate 32 0))
    (by decide) (by decide) (by decide) (by decide) (by decide)

/-! ## Envelope builder lemmas -/

theorem wrapRecipients_ok (fk : Bytes) (tapes : Nat → Nat → Nat) (i : Nat)
    (rs : List RecipientRec) :
    (∀ r ∈ rs, ∃ pk, b64d r.publicKey = some pk ∧ pk.length = 32) →
      wrapRecipients fk tapes i rs = .ok (expectedWrap fk tapes i rs) := by
  induction rs generalizing i with
  | nil => intro _; rfl
  | cons r rest ih =>
      intro h
      obtain ⟨pk, hpk, hlen⟩ := h r (by simp)
      have ihr := ih (i + 1) (fun x hx => h x (by simp [hx]))
      simp [wrapRecipients, expectedWrap, wrappedKeyOf, hpk, sealedbox_wrap, hlen, ihr]

theorem expectedWrap_map_email (fk : Bytes) (tapes : Nat → Nat → Nat) (i : Nat)
    (rs : List RecipientRec) :
    (expectedWrap fk tapes i rs).map (fun r => r.email) = rs.map fun r => r.email := by
  induction rs generalizing i with
  | nil => rfl
  | cons r rest ih => simp [expectedWrap, ih]

theorem expectedWrap_ne_nil (fk : Bytes) (tapes : Nat → Nat → Nat) (i : Nat)
    {rs : List RecipientRec} (h : rs ≠ []) : expectedWrap fk tapes i rs ≠ [] := by
  cases rs with
  | nil => exact absurd rfl h
  | cons a l => simp [expectedWrap]

theorem string_length_pos {s : String} (h : s ≠ "") : ¬ s.length < 1 := by
  cases s with
  | mk data =>
      cases data with
      | nil => exact absurd rfl h
      | cons a l => simp [String.length]

theorem build_manifest_ok_step (pid : String) (fk : Bytes)
    (recips : RecipientsExportRec) (tapes : Nat → Nat → Nat)
    (mr : List ManifestRecipientRec)
    (h : wrapRecipients fk tapes 0 recips.recipients = .ok mr) :
    build_manifest pid fk recips tapes = mkManifest pid mr := by
  unfold build_manifest
  rw [h]

/-! ## Claims about the envelope builder and recipient resolution -/

/-- C7: build_manifest fails with a pydantic ValidationError when the
recipient list is empty, and (for inputs whose public keys decode to
32-byte values, so that the wrapping loop itself succeeds) also when two
recipients share an email; the check is the Manifest validator itself,
run by build_manifest regardless of any upstream RecipientsExport
validation. -/
theorem C7_build_manifest_validation (pid : String) (fk : Bytes)
    (recips : RecipientsExportRec) (tapes : Nat → Nat → Nat) :
    (recips.recipients = [] →
        ∃ msg, build_manifest pid fk recips tapes = .error (.validationError msg)) ∧
      ((∀ r ∈ recips.recipients, ∃ pk, b64d r.publicKey = some pk ∧ pk.length = 32) →
        ¬ (recips.recipients.map fun r => r.email).Nodup →
        ∃ msg, build_manifest pid fk recips tapes = .error (.validationError msg)) := by
  constructor
  · intro hnil
    have hstep := build_manifest_ok_step pid fk recips tapes
      (expectedWrap fk tapes 0 recips.recipients)
      (wrapRecipients_ok fk tapes 0 _ (by rw [hnil]; intro r hr; simp at hr))
    rw [hstep, hnil]
    by_cases hp : pid.length < 1
    · exact ⟨"String should have at least 1 character",
        by simp [expectedWrap, mkManifest, hp]⟩
    · exact ⟨"Manifest must contain at least one recipient",
        by simp [expectedWrap, mkManifest, hp]⟩
  · intro hpks hdup
    rw [build_manifest_ok_step pid fk recips tapes _ (wrapRecipients_ok fk tapes 0 _ hpks)]
    have hd2 : ¬ ((expectedWrap fk tapes 0 recips.recipients).map fun r => r.email).Nodup := by
      rw [expectedWrap_map_email]
      exact hdup
    have hne : recips.recipients ≠ [] := by
      intro hcon
      rw [hcon] at hdup
      simp at hdup
    unfold mkManifest
    by_cases hp : pid.length < 1
    · exact ⟨"String should have at least 1 character", by rw [if_pos hp]⟩
    · refine ⟨"Duplicate manifest recipient emails detected", ?_⟩
      rw [if_neg hp, if_neg (by simpa using expectedWrap_ne_nil fk tapes 0 hne),
        if_neg hd2]

/-- C7 witness: duplicate emails with decodable 32-byte public keys on a
non-empty project id are rejected with a ValidationError. -/
theorem C7_build_manifest_validation_witness :
    ∃ msg,
      build_manifest "p" []
          ⟨"p", [⟨"a@x.com", b64e (List.replicate 32 0)⟩,
                 ⟨"a@x.com", b64e (List.replicate 32 0)⟩]⟩ (fun _ _ => 0) =
        .error (.validationError msg) :=
  (C7_build_manifest_validation "p" []
      ⟨"p", [⟨"a@x.com", b64e (List.replicate 32 0)⟩,
             ⟨"a@x.com", b64e (List.replicate 32 0)⟩]⟩ (fun _ _ => 0)).2
    (by
      intro r hr
      simp only [List.mem_cons, List.not_mem_nil, or_false] at hr
      rcases hr with rfl | rfl <;>
        exact ⟨List.replicate 32 0, by decide, by decide⟩)
    (by decide)

/-- C8: on a non-empty project id and a non-empty, duplicate-free
recipient list whose public keys decode to 32-byte values,
build_manifest succeeds with version 1, the fixed algo tag, the given
project id, and one ManifestRecipient per input recipient in input
order, each copying that recipient email and publicKey unchanged and
carrying the file key sealed to its public key. -/
theorem C8_build_manifest_shape (pid : String) (fk : Bytes)
    (recips : RecipientsExportRec) (tapes : Nat → Nat → Nat)
    (hpid : pid ≠ "") (hne : recips.recipients ≠ [])
    (hnodup : (recips.recipients.map fun r => r.email).Nodup)
    (hpks : ∀ r ∈ recips.recipients, ∃ pk, b64d r.publicKey = some pk ∧ pk.length = 32) :
    build_manifest pid fk recips tapes =
      .ok { version := 1, projectId := pid, algo := "xsalsa20poly1305",
            recipients := expectedWrap fk tapes 0 recips.recipients } := by
  rw [build_manifest_ok_step pid fk recips tapes _ (wrapRecipients_ok fk tapes 0 _ hpks)]
  unfold mkManifest
  rw [if_neg (string_length_pos hpid),
    if_neg (by simpa using expectedWrap_ne_nil fk tapes 0 hne),
    if_pos (by rw [expectedWrap_map_email]; exact hnodup)]

/-- C8 witness: a single-recipient input evaluated concretely. -/
theorem C8_build_manifest_shape_witness :
    build_manifest "p" [7]
        ⟨"p", [⟨"alice@example.com", b64e (List.replicate 32 0)⟩]⟩ (fun _ _ => 0) =
      .ok { version := 1, projectId := "p", algo := "xsalsa20poly1305",
            recipients :=
              expectedWrap [7] (fun _ _ => 0) 0
                [⟨"alice@example.com", b64e (List.replicate 32 0)⟩] } :=
  C8_build_manifest_shape "p" [7]
    ⟨"p", [⟨"alice@example.com", b64e (List.replicate 32 0)⟩]⟩ (fun _ _ => 0)
    (by decide) (by decide) (by decide)
    (by
      intro r hr
      simp only [List.mem_cons, List.not_mem_nil, or_false] at hr
      subst hr
      exact ⟨List.replicate 32 0, by decide, by decide⟩)

/-- C9: recipient resolution over a manifest prefers a public-key match
(whenever some entry carries the caller public key, the result is such
an entry), falls back to a case-insensitive email match only when no
public-key match exists, and fails with the Access-Denied outcome when
neither match exists. -/
theorem C9_recipient_resolution (upk : List Char) (em : String)
    (rs : List ManifestRecipientRec) :
    ((∃ r ∈ rs, r.publicKey = upk) →
        ∃ r, resolveRecipient upk em rs = .ok r ∧ r ∈ rs ∧ r.publicKey = upk) ∧
      ((∀ r ∈ rs, r.publicKey ≠ upk) →
        ((∃ r ∈ rs, strLower r.email = strLower em) →
            ∃ r, resolveRecipient upk em rs = .ok r ∧ r ∈ rs ∧
              strLower r.email = strLower em) ∧
          ((∀ r ∈ rs, strLower r.email ≠ strLower em) →
            resolveRecipient upk em rs =
              .error (.accessDenied "No manifest entry found"))) := by
  constructor
  · rintro ⟨r, hr, hpk⟩
    have hsome : (rs.find? fun x => x.publicKey == upk).isSome :=
      List.find?_isSome.mpr ⟨r, hr, by simp [hpk]⟩
    obtain ⟨r2, hr2⟩ := Option.isSome_iff_exists.mp hsome
    refine ⟨r2, ?_, List.mem_of_find?_eq_some hr2, by simpa using List.find?_some hr2⟩
    simp [resolveRecipient, hr2]
  · intro hnone
    have hfnone : rs.find? (fun x => x.publicKey == upk) = none :=
      List.find?_eq_none.mpr fun x hx => by simpa using hnone x hx
    constructor
    · rintro ⟨r, hr, hem⟩
      have hsome : (rs.find? fun x => strLower x.email == strLower em).isSome :=
        List.find?_isSome.mpr ⟨r, hr, by simp [hem]⟩
      obtain ⟨r2, hr2⟩ := Option.isSome_iff_exists.mp hsome
      refine ⟨r2, ?_, List.mem_of_find?_eq_some hr2, by simpa using List.find?_some hr2⟩
      simp [resolveRecipient, hfnone, hr2]
    · intro hnone2
      have hf2 : rs.find? (fun x => strLower x.email == strLower em) = none :=
        List.find?_eq_none.mpr fun x hx => by simpa using hnone2 x hx
      simp [resolveRecipient, hfnone, hf2]

/-- C9 witness: the public-key match branch evaluated on a one-entry
manifest whose entry carries the caller public key. -/
theorem C9_recipient_resolution_witness :
    ∃ r, resolveRecipient ['A'] "x@y.com"
          [{ email := "bob@example.com", publicKey := ['A'], wrappedKey := ['w'] }] =
        .ok r ∧
      r ∈ [{ email := "bob@example.com", publicKey := ['A'], wrappedKey := ['w'] }] ∧
      r.publicKey = ['A'] :=
  (C9_recipient_resolution ['A'] "x@y.com"
      [{ email := "bob@example.com", publicKey := ['A'], wrappedKey := ['w'] }]).1
    ⟨{ email := "bob@example.com", publicKey := ['A'], wrappedKey := ['w'] },
      by simp, rfl⟩

end Ripenv
